import Mathlib

/-!
# gin-middleware: the oauth gate

A shallow embedding of `oauth/oauth.go`, `oauth/session.go`,
`oauth/validator.go` and `err/err.go`, followed by theorems about the scope
matcher, the token extractor, the two gates, the context accessors, the Spring
Security validator and the error handler.

Conventions of the embedding:

* A Go `string` is a Lean `String`; functions of package `strings` work on its
  list of characters (`String.data`).
* A Go pointer that may be `nil` is an `Option`; a Go `error` value is an
  `Option GoError` (`none` is the `nil` error).
* A Go function with several results returns a tuple.
* A Go run-time panic is the `Except.error` branch of `Go`.
* Calls to `logrus` only write log lines; they are left out.
* A `gin` handler is a function of what `c.Next()` does and of the pair of the
  request context and the state outside it.
-/

set_option autoImplicit false

namespace GinMiddleware

/-! ## Go values -/

/-- Go `error` built by `errors.New` or `fmt.Errorf`: only its message is observable. -/
structure GoError where
  msg : String
deriving DecidableEq, Repr

/-- The method `Error()` of a Go error. -/
def GoError.Error (e : GoError) : String := e.msg

/-- Run-time panic of the Go program. -/
structure Panic where
  reason : String
deriving DecidableEq, Repr

/-- Result of running Go code that may panic. -/
abbrev Go (α : Type) := Except Panic α

deriving instance DecidableEq for Except

/-- The panic raised by a method call or field access through a nil value. -/
def nilDereference : Panic :=
  ⟨"runtime error: invalid memory address or nil pointer dereference"⟩

/-! ## Package `strings` and `unicode` -/

/-- Go `unicode.IsSpace`: the Latin-1 spaces and the code points with the
White_Space property. -/
def isSpace (r : Char) : Bool :=
  let n := r.toNat
  n == 0x09 || n == 0x0A || n == 0x0B || n == 0x0C || n == 0x0D || n == 0x20 ||
  n == 0x85 || n == 0xA0 || n == 0x1680 || (0x2000 ≤ n && n ≤ 0x200A) ||
  n == 0x2028 || n == 0x2029 || n == 0x202F || n == 0x205F || n == 0x3000

/-- Go `strings.TrimSpace` on a list of characters: leading spaces are dropped,
then trailing ones. -/
def trimSpaceChars (s : List Char) : List Char :=
  ((s.dropWhile isSpace).reverse.dropWhile isSpace).reverse

/-- Go `strings.TrimSpace`. -/
def TrimSpace (s : String) : String := ⟨trimSpaceChars s.data⟩

/-- Go `strings.Split(s, sep)` for a one-character separator, on a list of
characters: the pieces between consecutive occurrences of `sep`; the empty
input gives one empty piece. -/
def splitChars (sep : Char) : List Char → List (List Char)
  | [] => [[]]
  | c :: cs =>
    if c = sep then [] :: splitChars sep cs
    else
      match splitChars sep cs with
      | [] => [[c]]
      | p :: ps => (c :: p) :: ps

/-- Go `strings.Split(s, sep)` for a one-character separator such as `" "`. -/
def Split (s : String) (sep : Char) : List String :=
  (splitChars sep s.data).map String.mk

/-- Whitespace-separated tokens of a list of characters, as the specification
of the token extractor counts them (Go `strings.Fields`): maximal runs of
non-space characters. The second argument is the run being read. -/
def fieldsAux : List Char → List Char → List (List Char)
  | [], cur => if cur = [] then [] else [cur.reverse]
  | c :: cs, cur =>
    if isSpace c then
      (if cur = [] then fieldsAux cs [] else cur.reverse :: fieldsAux cs [])
    else fieldsAux cs (c :: cur)

/-- The whitespace-separated tokens of a string. This definition follows the
wording of the specification, not the code; `extractToken` is compared with it. -/
def whitespaceTokens (s : String) : List String :=
  (fieldsAux s.data []).map String.mk

/-! ## `net/http` request headers -/

/-- Go `http.Header`: canonical header name to its values. -/
abbrev Header := List (String × List String)

/-- Go `Header.Get`: the first value stored under the key, `""` when there is none. -/
def Header.Get (h : Header) (key : String) : String :=
  match h.lookup key with
  | some (v :: _) => v
  | _ => ""

/-- Go `Header.Set`: the key now holds exactly the one value. -/
def Header.Set (h : Header) (key value : String) : Header :=
  (key, [value]) :: h.filter (fun kv => kv.1 ≠ key)

/-- Go `http.Request`, reduced to method, URL and headers. -/
structure Request where
  Method : String
  URL : String
  Header : Header
deriving DecidableEq, Repr

/-! ## `oauth.go`: data model -/

/-- The constant `tokenKey`. -/
def tokenKey : String := "oauthToken"

/-- User associated to the verified oauth token. -/
structure User where
  Username : String
  Authorities : List String
deriving DecidableEq, Repr

/-- AuthToken: the client attached to an access token; `User` is a pointer
that is nil for service-level requests. -/
structure AuthToken where
  User : Option User
  Scopes : List String
  ClientID : String
deriving DecidableEq, Repr

/-- The type of the helper `stringInSlice(a, list)`. It is called by
`hasSharedScope`, but its definition is not among the sources, so the functions
that reach it take it as their first argument. -/
abbrev StringInSlice := String → List String → Bool

/-- Modelled from the spec: the helper `stringInSlice(a, list)`, whose
definition is missing from the sources. The specification reads the scope check
as set intersection, so the helper is membership of `a` in `list`, found by a
left-to-right scan. -/
def stringInSlice : StringInSlice
  | _, [] => false
  | a, b :: rest => if b = a then true else stringInSlice a rest

/-- The function `hasSharedScope`: the loop over `userRoles` returns true at the
first role that the helper finds in `allowedScopes`, false when the loop ends. -/
def hasSharedScope (inSlice : StringInSlice) : List String → List String → Bool
  | [], _ => false
  | us :: rest, allowedScopes =>
    if inSlice us allowedScopes then true
    else hasSharedScope inSlice rest allowedScopes

/-- The function `extractToken`, returning Go's pair `(string, error)`. -/
def extractToken (r : Request) : String × Option GoError :=
  let authHeader := r.Header.Get "Authorization"
  if authHeader = "" then
    ("", some ⟨"no authorization header"⟩)
  else
    let parts := Split (TrimSpace authHeader) ' '
    if parts.length ≠ 2 then
      ("", some ⟨"incomplete authorization header"⟩)
    else
      (parts.getD 1 "", none)


/-! ## gin: the request context

The library `gin` is not part of the repository. Its context is modelled by the
fields the middleware reads and writes, and its methods by their documented
effect on those fields. -/

/-- The constant `http.StatusUnauthorized`. -/
def StatusUnauthorized : Int := 401

/-- The constant `http.StatusOK`. -/
def StatusOK : Int := 200

/-- A Go `interface{}` value as stored in the context keys or in an error meta:
the nil interface, a `*AuthToken` (possibly a nil pointer), a string, a
`GinErrorMeta` struct, or a value of some other type. -/
inductive Value where
  | nil
  | authToken (p : Option AuthToken)
  | string (s : String)
  | ginErrorMeta (Code : String) (Extra : List (String × String))
  | other (typeName : String)
deriving DecidableEq, Repr

/-- The flag `gin.ErrorTypePrivate`. -/
def ErrorTypePrivate : Nat := 1

/-- The flag `gin.ErrorTypePublic`. -/
def ErrorTypePublic : Nat := 2

/-- The struct `gin.Error`. -/
structure gin.Error where
  Err : GoError
  Type_ : Nat
  Meta : Value
deriving DecidableEq, Repr

/-- The struct `gin.Context`: the request, the key/value store, the accumulated
errors, the status held by the response writer (200 until one is set) and
whether the handler chain was aborted (`c.index >= abortIndex`). -/
structure Context where
  Request : Request
  Keys : List (String × Value)
  Errors : List gin.Error
  status : Int
  aborted : Bool
deriving DecidableEq, Repr

/-- The method `c.Get(key)`: the stored value and whether the key exists. -/
def Context.Get (c : Context) (key : String) : Value × Bool :=
  match c.Keys.lookup key with
  | some v => (v, true)
  | none => (Value.nil, false)

/-- The method `c.Set(key, value)`: `c.Keys[key] = value`. -/
def Context.Set (c : Context) (key : String) (value : Value) : Context :=
  { c with Keys := (key, value) :: c.Keys.filter (fun kv => kv.1 ≠ key) }

/-- The method `c.Abort()`: no pending handler of the chain will be called. -/
def Context.Abort (c : Context) : Context :=
  { c with aborted := true }

/-- The method `c.AbortWithStatus(code)`: writes the status code (a positive
one replaces the current status) and aborts. -/
def Context.AbortWithStatus (c : Context) (code : Int) : Context :=
  Context.Abort { c with status := if 0 < code then code else c.status }

/-- The method `c.Error(err)` for a plain error: it is appended to `c.Errors` as
a private error without meta. -/
def Context.Error (c : Context) (err : GoError) : Context :=
  { c with Errors := c.Errors ++ [gin.Error.mk err ErrorTypePrivate Value.nil] }

/-- The method `c.AbortWithError(code, err)`: `AbortWithStatus`, then `Error`. -/
def Context.AbortWithError (c : Context) (code : Int) (err : GoError) : Context :=
  (c.AbortWithStatus code).Error err

/-- What the client can observe of a finished request: the status, whether the
chain was aborted, and the errors that the error formatter renders. -/
def Context.outcome (c : Context) : Int × Bool × List gin.Error :=
  (c.status, c.aborted, c.Errors)

/-- A `gin.HandlerFunc`, on the pair of the request context and the state `σ`
of everything outside it (the validator, the network). Its first argument is
what `c.Next()` does when called inside the handler: it runs the pending
handlers of the chain. -/
abbrev HandlerFunc (σ : Type) :=
  (Context × σ → Go (Context × σ)) → Context × σ → Go (Context × σ)

/-! ## `oauth.go`: accessor and gates -/

/-- The interface `TokenValidator`. A call of `Validate` may read and change
the outside state, returns Go's pair `(*AuthToken, error)`, or panics. -/
structure TokenValidator (σ : Type) where
  Validate : String → σ → Go ((Option AuthToken × Option GoError) × σ)

/-- The accessor `Token`. It takes the context by pointer, so the context after
the call is returned next to the result. -/
def Token (c : Context) : Option AuthToken × Context :=
  match c.Get tokenKey with
  | (_, false) => (none, c)
  | (t, true) =>
    match t with
    | Value.authToken token => (token, c)
    | _ => (none, c)

/-- The handler built by `BearerTokenAuth(validator)`. -/
def BearerTokenAuth {σ : Type} (validator : TokenValidator σ) : HandlerFunc σ :=
  fun next cw =>
    let c := cw.1
    let w := cw.2
    match extractToken c.Request with
    | (_, some err) => Except.ok (c.AbortWithError StatusUnauthorized err, w)
    | (token, none) =>
      match validator.Validate token w with
      | Except.error p => Except.error p
      | Except.ok ((userToken, err), w1) =>
        if err ≠ none ∨ userToken = none then
          Except.ok (c.AbortWithStatus StatusUnauthorized, w1)
        else
          next (c.Set tokenKey (Value.authToken userToken), w1)

/-- The handler built by `MustScope(scopes)`. -/
def MustScope {σ : Type} (inSlice : StringInSlice) (scopes : List String) : HandlerFunc σ :=
  fun next cw =>
    let w := cw.2
    match Token cw.1 with
    | (none, c) => Except.ok (c.AbortWithStatus StatusUnauthorized, w)
    | (some token, c) =>
      if !hasSharedScope inSlice token.Scopes scopes then
        Except.ok (c.AbortWithStatus StatusUnauthorized, w)
      else
        next (c, w)

/-! ## `session.go`: accessors -/

/-- The accessor `SessionUser`. -/
def SessionUser (c : Context) : Option User × Context :=
  match Token c with
  | (none, c) => (none, c)
  | (some token, c) =>
    match token.User with
    | none => (none, c)
    | some u => (some u, c)

/-- The accessor `AuditActor`. -/
def AuditActor (c : Context) : String × Context :=
  match Token c with
  | (none, c) => ("unknown", c)
  | (some token, c) =>
    match token.User with
    | some u => (u.Username, c)
    | none => (token.ClientID, c)

/-! ## `validator.go`: the Spring Security validator -/

/-- The struct `checkTokenResponse`. -/
structure checkTokenResponse where
  Username : String
  ClientID : String
  Authorities : List String
  Scope : List String
deriving DecidableEq, Repr

/-- The struct `SpringSecTokenValidatorSpec`. -/
structure SpringSecTokenValidatorSpec where
  Host : String
  User : String
  Password : String
deriving DecidableEq, Repr

/-- Go `http.Response`: the status code, and what `ioutil.ReadAll(resp.Body)`
returns for its body. -/
structure Response where
  StatusCode : Int
  Body : String × Option GoError
deriving DecidableEq, Repr

/-- Go `http.Client`: `Do` returns Go's pair `(*Response, error)`. -/
structure Client where
  Do : Request → Option Response × Option GoError

/-- The standard-library functions called by `checkToken`, each returning
Go's results: `url.Values.Encode` of the one pair `token=<token>`,
`http.NewRequest`, the credentials encoding inside `SetBasicAuth`, and
`json.Unmarshal` into a zero `checkTokenResponse`. -/
structure Stdlib where
  Encode : String → String
  NewRequest : String → String → Option Request × Option GoError
  basicAuth : String → String → String
  Unmarshal : String → checkTokenResponse × Option GoError

/-- The struct `SpringSecTokenValidator`. -/
structure SpringSecTokenValidator where
  spec : SpringSecTokenValidatorSpec
  client : Client

/-- The method `checkToken`. The request returned by `http.NewRequest` is used
(`SetBasicAuth`, `Header.Set`) before the error is tested, as in the source. -/
def SpringSecTokenValidator.checkToken (lib : Stdlib) (v : SpringSecTokenValidator)
    (token : String) : Go (Option checkTokenResponse × Option GoError) :=
  let url := v.spec.Host ++ "/oauth/check_token?" ++ lib.Encode token
  match lib.NewRequest "GET" url with
  | (none, _) => Except.error nilDereference
  | (some req, err) =>
    let credentials := "Basic " ++ lib.basicAuth v.spec.User v.spec.Password
    let req := { req with Header := req.Header.Set "Authorization" credentials }
    let req := { req with Header := req.Header.Set "Accept" "application/json" }
    match err with
    | some e => Except.ok (none, some e)
    | none =>
      match v.client.Do req with
      | (_, some e) => Except.ok (none, some e)
      | (none, none) => Except.error nilDereference
      | (some resp, none) =>
        if resp.StatusCode ≠ 200 then
          Except.ok (none, some ⟨"got status: " ++ toString resp.StatusCode⟩)
        else
          match resp.Body with
          | (_, some e) => Except.ok (none, some e)
          | (bytes, none) =>
            match lib.Unmarshal bytes with
            | (_, some e) => Except.ok (none, some e)
            | (tokenResp, none) => Except.ok (some tokenResp, none)

/-- The condition `err != nil || tokenResp.ClientID == ""` of `Validate`: the
right operand is evaluated only when `err` is nil, and dereferences `tokenResp`. -/
def validateFailed (tokenResp : Option checkTokenResponse) (err : Option GoError) : Go Bool :=
  match err with
  | some _ => Except.ok true
  | none =>
    match tokenResp with
    | none => Except.error nilDereference
    | some r => Except.ok (decide (r.ClientID = ""))

/-- The method `Validate`. On the failure branch the message is built from
`err.Error()`, which dereferences `err`. -/
def SpringSecTokenValidator.Validate (lib : Stdlib) (v : SpringSecTokenValidator)
    (token : String) : Go (Option AuthToken × Option GoError) :=
  match v.checkToken lib token with
  | Except.error p => Except.error p
  | Except.ok (tokenResp, err) =>
    match validateFailed tokenResp err with
    | Except.error p => Except.error p
    | Except.ok true =>
      match err with
      | none => Except.error nilDereference
      | some e => Except.ok (none, some ⟨"failed to check auth token: " ++ e.Error⟩)
    | Except.ok false =>
      match tokenResp with
      | none => Except.error nilDereference
      | some r =>
        let t : AuthToken := { User := none, Scopes := r.Scope, ClientID := r.ClientID }
        let t : AuthToken :=
          if r.Username ≠ "" then
            { t with User := some { Username := r.Username, Authorities := r.Authorities } }
          else t
        Except.ok (some t, none)

/-- The request that `checkToken` hands to the client: the one built by
`http.NewRequest`, with the basic-auth credentials and the Accept header set. -/
def outboundRequest (lib : Stdlib) (v : SpringSecTokenValidator) (req : Request) : Request :=
  { Method := req.Method, URL := req.URL,
    Header := (req.Header.Set "Authorization"
      ("Basic " ++ lib.basicAuth v.spec.User v.spec.Password)).Set "Accept" "application/json" }

/-- The URL that `checkToken` asks for. -/
def checkTokenURL (lib : Stdlib) (v : SpringSecTokenValidator) (token : String) : String :=
  v.spec.Host ++ "/oauth/check_token?" ++ lib.Encode token

/-! ## `err.go`: the error handler -/

/-- Go `strings.Join(elems, sep)`. -/
def Join (elems : List String) (sep : String) : String :=
  sep.intercalate elems

/-- The flag `gin.ErrorTypeAny`: all 64 bits. -/
def ErrorTypeAny : Nat := 2 ^ 64 - 1

/-- The method `msg.IsType(flags)` of `gin.Error`: `(msg.Type & flags) > 0`. -/
def gin.Error.IsType (msg : gin.Error) (flags : Nat) : Bool :=
  decide (0 < msg.Type_ &&& flags)

/-- The method `ByType` of gin's `errorMsgs`: the errors that carry one of the
flags of `typ`, in order. -/
def errorMsgs.ByType (a : List gin.Error) (typ : Nat) : List gin.Error :=
  if a.length = 0 then []
  else if typ = ErrorTypeAny then a
  else a.filter (fun msg => msg.IsType typ)

/-- The method `Last` of gin's `errorMsgs`: nil for the empty list. -/
def errorMsgs.Last (a : List gin.Error) : Option gin.Error :=
  a.getLast?

/-- The method `Errors` of gin's `errorMsgs`: the messages, in order. The
message `msg.Error()` of a `gin.Error` is the one of the error it wraps. -/
def errorMsgs.Errors (a : List gin.Error) : List String :=
  a.map (fun msg => msg.Err.Error)

/-- The struct `ErrorResponse`. The map `Meta` is a list of pairs, empty for the
nil map; the JSON body written by `c.JSON` is a function of this value. -/
structure ErrorResponse where
  ID : String
  Title : String
  Code : String
  Detail : String
  Meta : List (String × String)
deriving DecidableEq, Repr

/-- The panic raised by the type assertion `uuid.(string)` on a value that is
not a string. -/
def notAString : Panic :=
  ⟨"interface conversion: interface is not string"⟩

/-- The block `if last.Meta != nil { ... }` that both branches of `ErrorHandler`
end with: a `GinErrorMeta` of the last error gives the code and the meta of the
response. -/
def withLastMeta (last : gin.Error) (resp : ErrorResponse) : ErrorResponse :=
  match last.Meta with
  | Value.ginErrorMeta code extra => { resp with Code := code, Meta := extra }
  | _ => resp

/-- One branch of `ErrorHandler`, from `last := c.Errors.Last()` on, given the
errors that go into the detail: the response passed to `c.JSON(-1, resp)`.
Evaluating `uuid.(string)` panics unless `uuid` holds a string. -/
def buildResponse (uuid : Value) (errors : List gin.Error) (last : Option gin.Error) :
    Go ErrorResponse :=
  match uuid with
  | Value.string id =>
    match last with
    | none => Except.error nilDereference
    | some l =>
      Except.ok (withLastMeta l
        { ID := id, Title := l.Err.Error, Code := "",
          Detail := Join (errorMsgs.Errors errors) "\n", Meta := [] })
  | _ => Except.error notAString

/-- The handler built by `ErrorHandler()`. `debugging` is what
`gin.IsDebugging()` returns. The handler first runs the pending handlers; the
response it writes with `c.JSON(-1, resp)`, which leaves the status as it is,
is returned next to the context, `none` when it writes nothing. -/
def ErrorHandler {σ : Type} (debugging : Bool) (next : Context × σ → Go (Context × σ))
    (cw : Context × σ) : Go ((Context × σ) × Option ErrorResponse) :=
  match next cw with
  | Except.error p => Except.error p
  | Except.ok (c, w) =>
    if c.Errors.length > 0 then
      let uuid : Value :=
        match c.Get "uuid" with
        | (v, true) => v
        | (_, false) => Value.string ""
      if debugging then
        match buildResponse uuid c.Errors (errorMsgs.Last c.Errors) with
        | Except.error p => Except.error p
        | Except.ok resp => Except.ok ((c, w), some resp)
      else
        match buildResponse uuid (errorMsgs.ByType c.Errors ErrorTypePublic)
            (errorMsgs.Last c.Errors) with
        | Except.error p => Except.error p
        | Except.ok resp => Except.ok ((c, w), some resp)
    else
      Except.ok ((c, w), none)

/-! ## Test doubles

Concrete validators, handlers, contexts and providers, after the ones of
`oauth_test.go`, `validator_test.go` and `err_test.go`. They are the inputs at which the
theorems below are instantiated. -/

/-- The `mockTokenValidator` of `oauth_test.go`: it returns its token and a nil
error. The outside state is a counter of the calls of `Validate`. -/
def mockTokenValidator (token : Option AuthToken) : TokenValidator Nat :=
  { Validate := fun _ calls => Except.ok ((token, none), calls + 1) }

/-- A validator that rejects every credential with an error, counting its calls. -/
def rejectingValidator : TokenValidator Nat :=
  { Validate := fun _ calls => Except.ok ((none, some ⟨"token rejected"⟩), calls + 1) }

/-- The route handler of the tests: `c.AbortWithStatus(http.StatusOK)`. -/
def okHandler : Context × Nat → Go (Context × Nat) :=
  fun cw => Except.ok (cw.1.AbortWithStatus StatusOK, cw.2)

/-- A fresh context for `GET /` with the given Authorization header values. -/
def newContext (authorization : List String) : Context :=
  { Request := { Method := "GET", URL := "/", Header := [("Authorization", authorization)] },
    Keys := [], Errors := [], status := 200, aborted := false }

/-- A fresh context for `GET /` without an Authorization header. -/
def bareContext : Context :=
  { Request := { Method := "GET", URL := "/", Header := [] },
    Keys := [], Errors := [], status := 200, aborted := false }

/-- A service token with the scopes `service` and `mobile`. -/
def serviceToken : AuthToken :=
  { User := none, Scopes := ["service", "mobile"], ClientID := "clientapp" }

/-- A user token for `robzienert`. -/
def userToken : AuthToken :=
  { User := some { Username := "robzienert", Authorities := ["ROLE_CONSOLE", "ROLE_USER"] },
    Scopes := ["mobile", "read"], ClientID := "clientapp" }

/-- The zero value of `checkTokenResponse`. -/
def zeroResponse : checkTokenResponse :=
  { Username := "", ClientID := "", Authorities := [], Scope := [] }

/-- The body served by `oauthProviderStub` for the known token (without its
`exp` field, which `checkTokenResponse` does not read). -/
def knownBody : String :=
  "\x7b\"user_name\":\"robzienert\",\"authorities\":[\"ROLE_CONSOLE\",\"ROLE_USER\"],\"client_id\":\"clientapp\",\"scope\":[\"mobile\",\"read\"]\x7d"

/-- A stand-in for the standard library. `NewRequest` fails on a URL that
starts with a colon (Go: "missing protocol scheme") and returns a nil request
then; `Unmarshal` decodes the known body and the empty JSON object, and fails
on anything else. -/
def stubStdlib : Stdlib :=
  { Encode := fun token => "token=" ++ token,
    NewRequest := fun method url =>
      if url.data.head? = some ':' then (none, some ⟨"parse: missing protocol scheme"⟩)
      else (some { Method := method, URL := url, Header := [] }, none),
    basicAuth := fun user password => user ++ ":" ++ password,
    Unmarshal := fun bytes =>
      if bytes = knownBody then
        ({ Username := "robzienert", ClientID := "clientapp",
           Authorities := ["ROLE_CONSOLE", "ROLE_USER"], Scope := ["mobile", "read"] }, none)
      else if bytes = "\x7b\x7d" then (zeroResponse, none)
      else (zeroResponse, some ⟨"unexpected end of JSON input"⟩) }

/-- The provider of `validator_test.go`: status 200 and the known body for
`fakeToken`; status 200 and an empty body otherwise. -/
def oauthProviderStub : Client :=
  { Do := fun req =>
      if req.URL = "http://provider/oauth/check_token?token=fakeToken" then
        (some { StatusCode := 200, Body := (knownBody, none) }, none)
      else (some { StatusCode := 200, Body := ("", none) }, none) }

/-- A provider that answers every request with status 200 and the empty JSON
object as body. -/
def emptyObjectProvider : Client :=
  { Do := fun _ => (some { StatusCode := 200, Body := ("\x7b\x7d", none) }, none) }

/-- A provider that answers every request with the given status and no body. -/
def statusProvider (code : Int) : Client :=
  { Do := fun _ => (some { StatusCode := code, Body := ("", none) }, none) }

/-- The validator of the tests, pointed at the given provider. -/
def stubValidator (client : Client) : SpringSecTokenValidator :=
  { spec := { Host := "http://provider", User := "", Password := "" }, client := client }

/-- A validator whose configured host is a lone colon. -/
def badHostValidator : SpringSecTokenValidator :=
  { spec := { Host := ":", User := "", Password := "" }, client := oauthProviderStub }

/-- The constant `http.StatusInternalServerError`. -/
def StatusInternalServerError : Int := 500

/-- The route handler of `TestErrorHandler_InternalServerError_Public`: it
records the error `something awful` and aborts with status 500 and the error
`last error`; both are private errors. -/
def boomHandler : Context × Nat → Go (Context × Nat) :=
  fun cw => Except.ok
    ((cw.1.Error ⟨"something awful"⟩).AbortWithError StatusInternalServerError ⟨"last error"⟩,
      cw.2)

/-- A route handler that aborts with status 500 and one private error. -/
def failingHandler (message : String) : Context × Nat → Go (Context × Nat) :=
  fun cw => Except.ok (cw.1.AbortWithError StatusInternalServerError ⟨message⟩, cw.2)

/-- A context whose accumulated errors are a private one, a public one with a
`GinErrorMeta`, after the example of `err_test.go`. -/
def exampleErrors : List gin.Error :=
  [gin.Error.mk ⟨"some function that returns an error"⟩ ErrorTypePrivate Value.nil,
   gin.Error.mk ⟨"This is a public-friendly error"⟩ ErrorTypePublic
     (Value.ginErrorMeta "ABCD1234" [])]

/-- A route handler that leaves the given errors in the context. -/
def handlerWithErrors (errors : List gin.Error) : Context × Nat → Go (Context × Nat) :=
  fun cw => Except.ok
    (Context.mk cw.1.Request cw.1.Keys errors StatusInternalServerError true, cw.2)

/-! ## Scope matcher -/

theorem stringInSlice_iff_mem (a : String) (list : List String) :
    stringInSlice a list = true ↔ a ∈ list := by
  induction list with
  | nil => simp [stringInSlice]
  | cons b rest ih =>
    by_cases hb : b = a
    · simp [stringInSlice, hb]
    · have hab : ¬ a = b := fun h => hb h.symm
      simp [stringInSlice, hb, hab, ih]

theorem hasSharedScope_iff (inSlice : StringInSlice)
    (hin : ∀ a list, inSlice a list = true ↔ a ∈ list)
    (userRoles allowedScopes : List String) :
    hasSharedScope inSlice userRoles allowedScopes = true ↔
      ∃ s, s ∈ userRoles ∧ s ∈ allowedScopes := by
  induction userRoles with
  | nil => simp [hasSharedScope]
  | cons us rest ih =>
    by_cases hus : inSlice us allowedScopes = true
    · have hmem := (hin us allowedScopes).mp hus
      simp only [hasSharedScope, hus, if_true, true_iff]
      exact ⟨us, List.mem_cons_self _ _, hmem⟩
    · have hnot : us ∉ allowedScopes := fun h => hus ((hin us allowedScopes).mpr h)
      simp only [hasSharedScope, hus, if_false, Bool.false_eq_true, ih]
      constructor
      · rintro ⟨s, hs, hall⟩
        exact ⟨s, List.mem_cons_of_mem _ hs, hall⟩
      · rintro ⟨s, hs, hall⟩
        rcases List.mem_cons.mp hs with rfl | hs
        · exact absurd hall hnot
        · exact ⟨s, hs, hall⟩

/-- C1: with the helper `stringInSlice` read as list membership,
`hasSharedScope tokenScopes requiredScopes` is true exactly when some string
occurs in both lists; it is false when the required scopes are empty and when
the token scopes are empty. -/
theorem hasSharedScope_true_iff_intersect (inSlice : StringInSlice)
    (hin : ∀ a list, inSlice a list = true ↔ a ∈ list) :
    (∀ tokenScopes requiredScopes : List String,
      hasSharedScope inSlice tokenScopes requiredScopes = true ↔
        ∃ s, s ∈ tokenScopes ∧ s ∈ requiredScopes) ∧
    (∀ tokenScopes : List String, hasSharedScope inSlice tokenScopes [] = false) ∧
    (∀ requiredScopes : List String, hasSharedScope inSlice [] requiredScopes = false) := by
  refine ⟨hasSharedScope_iff inSlice hin, ?_, ?_⟩
  · intro tokenScopes
    cases h : hasSharedScope inSlice tokenScopes [] with
    | false => rfl
    | true =>
      obtain ⟨s, _, hs⟩ := (hasSharedScope_iff inSlice hin tokenScopes []).mp h
      exact absurd hs (List.not_mem_nil s)
  · intro requiredScopes
    rfl

/-- C1 at the membership scan and the scope lists of `TestMustScope`. -/
theorem hasSharedScope_true_iff_intersect_witness :
    hasSharedScope stringInSlice ["service", "mobile"] ["service"] = true ∧
    hasSharedScope stringInSlice ["fire"] [] = false ∧
    hasSharedScope stringInSlice [] ["mobile"] = false :=
  ⟨((hasSharedScope_true_iff_intersect stringInSlice stringInSlice_iff_mem).1
      ["service", "mobile"] ["service"]).mpr ⟨"service", by decide, by decide⟩,
   (hasSharedScope_true_iff_intersect stringInSlice stringInSlice_iff_mem).2.1 ["fire"],
   (hasSharedScope_true_iff_intersect stringInSlice stringInSlice_iff_mem).2.2 ["mobile"]⟩

/-! ## Token extractor -/

theorem splitChars_ne_nil (sep : Char) (s : List Char) : splitChars sep s ≠ [] := by
  cases s with
  | nil => simp [splitChars]
  | cons c cs =>
    by_cases hc : c = sep
    · simp [splitChars, hc]
    · cases h : splitChars sep cs <;> simp [splitChars, hc, h]

theorem splitChars_of_not_mem (sep : Char) (s : List Char) (h : sep ∉ s) :
    splitChars sep s = [s] := by
  induction s with
  | nil => rfl
  | cons c cs ih =>
    have hc : ¬ c = sep := fun e => h (by simp [e])
    have hcs : sep ∉ cs := fun e => h (List.mem_cons_of_mem _ e)
    simp [splitChars, hc, ih hcs]

theorem splitChars_append_sep (sep : Char) (a b : List Char) (h : sep ∉ a) :
    splitChars sep (a ++ sep :: b) = a :: splitChars sep b := by
  induction a with
  | nil => simp [splitChars]
  | cons c cs ih =>
    have hc : ¬ c = sep := fun e => h (by simp [e])
    have hcs : sep ∉ cs := fun e => h (List.mem_cons_of_mem _ e)
    simp [splitChars, hc, ih hcs]

theorem exists_first_sep (sep : Char) (s : List Char) (h : sep ∈ s) :
    ∃ x y, s = x ++ sep :: y ∧ sep ∉ x := by
  induction s with
  | nil => simp at h
  | cons d ds ih =>
    by_cases hd : d = sep
    · exact ⟨[], ds, by simp [hd], by simp⟩
    · have hm : sep ∈ ds := by
        rcases List.mem_cons.mp h with e | e
        · exact absurd e.symm hd
        · exact e
      obtain ⟨x, y, h1, h2⟩ := ih hm
      refine ⟨d :: x, y, by simp [h1], ?_⟩
      intro e
      rcases List.mem_cons.mp e with e | e
      · exact hd e.symm
      · exact h2 e

theorem splitChars_single_not_mem (sep : Char) (s b : List Char)
    (h : splitChars sep s = [b]) : sep ∉ s := by
  intro hmem
  obtain ⟨x, y, h1, h2⟩ := exists_first_sep sep s hmem
  rw [h1, splitChars_append_sep sep x y h2] at h
  exact splitChars_ne_nil sep y (List.cons.inj h).2

theorem splitChars_eq_pair (sep : Char) (s a b : List Char)
    (h : splitChars sep s = [a, b]) : s = a ++ sep :: b ∧ sep ∉ a ∧ sep ∉ b := by
  induction s generalizing a with
  | nil => simp [splitChars] at h
  | cons c cs ih =>
    by_cases hc : c = sep
    · simp only [splitChars, hc, if_true] at h
      have ha : a = [] := (List.cons.inj h).1.symm
      have hb : splitChars sep cs = [b] := (List.cons.inj h).2
      subst ha
      have hnot : sep ∉ cs := splitChars_single_not_mem sep cs b hb
      have hcs : cs = b := by
        rw [splitChars_of_not_mem sep cs hnot] at hb
        exact (List.cons.inj hb).1
      subst hcs
      exact ⟨by simp [hc], by simp, hnot⟩
    · cases hsp : splitChars sep cs with
      | nil => exact absurd hsp (splitChars_ne_nil sep cs)
      | cons p ps =>
        simp only [splitChars, hc, if_false, hsp] at h
        have hp : a = c :: p := (List.cons.inj h).1.symm
        have hps : ps = [b] := (List.cons.inj h).2
        subst hp hps
        obtain ⟨h1, h2, h3⟩ := ih p hsp
        refine ⟨by simp [h1], ?_, h3⟩
        intro e
        rcases List.mem_cons.mp e with e | e
        · exact hc e.symm
        · exact h2 e

theorem extractToken_of_pair (r : Request) (a b : List Char)
    (h : splitChars ' ' (TrimSpace (r.Header.Get "Authorization")).data = [a, b]) :
    extractToken r = (String.mk b, none) := by
  have hne : r.Header.Get "Authorization" ≠ "" := by
    intro e
    have h0 : splitChars ' ' (TrimSpace "").data = [[]] := by decide
    rw [e, h0] at h
    simp at h
  simp [extractToken, hne, Split, h]

theorem extractToken_error_of_not_pair (r : Request)
    (h : (splitChars ' ' (TrimSpace (r.Header.Get "Authorization")).data).length ≠ 2) :
    (extractToken r).1 = "" ∧ (extractToken r).2 ≠ none := by
  by_cases hne : r.Header.Get "Authorization" = ""
  · simp [extractToken, hne]
  · simp [extractToken, hne, Split, h]

theorem extractToken_error_of_empty (r : Request) (h : r.Header.Get "Authorization" = "") :
    extractToken r = ("", some ⟨"no authorization header"⟩) := by
  simp [extractToken, h]

/-- C2, counterexample: a header with two whitespace-separated tokens that are
two spaces apart, or a tab apart, is rejected, and a header with three
whitespace-separated tokens of which the last two are a tab apart is accepted. -/
theorem extractToken_whitespace_counterexample :
    ((whitespaceTokens "Bearer  abc").length = 2 ∧
      extractToken (newContext ["Bearer  abc"]).Request =
        ("", some ⟨"incomplete authorization header"⟩)) ∧
    ((whitespaceTokens "Bearer\tabc").length = 2 ∧
      extractToken (newContext ["Bearer\tabc"]).Request =
        ("", some ⟨"incomplete authorization header"⟩)) ∧
    ((whitespaceTokens "Bearer abc\tdef").length = 3 ∧
      extractToken (newContext ["Bearer abc\tdef"]).Request =
        ("abc\tdef", none)) := by
  decide

/-- C2, amended: when the header value, trimmed of leading and trailing
whitespace, is two pieces joined by one space character (U+0020) and neither
piece contains a space character, `extractToken` returns the second piece
unchanged and no error; in every other case (the empty or absent header
included) it returns an error and the empty credential. -/
theorem extractToken_single_space (r : Request) :
    (∀ scheme credential : List Char,
      (TrimSpace (r.Header.Get "Authorization")).data = scheme ++ ' ' :: credential →
      ' ' ∉ scheme → ' ' ∉ credential →
      extractToken r = (String.mk credential, none)) ∧
    ((∀ scheme credential : List Char,
      (TrimSpace (r.Header.Get "Authorization")).data = scheme ++ ' ' :: credential →
      ' ' ∈ scheme ∨ ' ' ∈ credential) →
      (extractToken r).1 = "" ∧ (extractToken r).2 ≠ none) := by
  constructor
  · intro scheme credential htrim hs hc
    apply extractToken_of_pair r scheme credential
    rw [htrim, splitChars_append_sep ' ' scheme credential hs,
      splitChars_of_not_mem ' ' credential hc]
  · intro hall
    apply extractToken_error_of_not_pair
    intro hlen
    match hsp : splitChars ' ' (TrimSpace (r.Header.Get "Authorization")).data, hlen with
    | [a, b], _ =>
      obtain ⟨h1, h2, h3⟩ := splitChars_eq_pair ' ' _ a b hsp
      rcases hall a b h1 with h | h
      · exact h2 h
      · exact h3 h

/-- C2, amended, at the header `Bearer abc` and at the absent header. -/
theorem extractToken_single_space_witness :
    extractToken (newContext ["Bearer abc"]).Request = ("abc", none) ∧
    ((extractToken bareContext.Request).1 = "" ∧ (extractToken bareContext.Request).2 ≠ none) :=
  ⟨(extractToken_single_space (newContext ["Bearer abc"]).Request).1
      "Bearer".data "abc".data (by decide) (by decide) (by decide),
    (extractToken_single_space bareContext.Request).2
      (fun scheme credential h => by
        have h0 : (TrimSpace (bareContext.Request.Header.Get "Authorization")).data = [] := by
          decide
        rw [h0] at h
        cases scheme <;> simp at h)⟩

/-! ## Authentication gate -/

theorem Token_Set_authToken (c : Context) (p : Option AuthToken) :
    Token (c.Set tokenKey (Value.authToken p)) = (p, c.Set tokenKey (Value.authToken p)) := by
  simp [Token, Context.Get, Context.Set, List.lookup]

theorem BearerTokenAuth_extract_error {σ : Type} (V : TokenValidator σ)
    (next : Context × σ → Go (Context × σ)) (c : Context) (w : σ) (t : String) (err : GoError)
    (hx : extractToken c.Request = (t, some err)) :
    BearerTokenAuth V next (c, w) = Except.ok (c.AbortWithError StatusUnauthorized err, w) := by
  simp [BearerTokenAuth, hx]

theorem BearerTokenAuth_accept {σ : Type} (V : TokenValidator σ)
    (next : Context × σ → Go (Context × σ)) (c : Context) (w w1 : σ) (t : String)
    (tok : AuthToken) (hx : extractToken c.Request = (t, none))
    (hv : V.Validate t w = Except.ok ((some tok, none), w1)) :
    BearerTokenAuth V next (c, w) = next (c.Set tokenKey (Value.authToken (some tok)), w1) := by
  simp [BearerTokenAuth, hx, hv]

theorem BearerTokenAuth_reject {σ : Type} (V : TokenValidator σ)
    (next : Context × σ → Go (Context × σ)) (c : Context) (w w1 : σ) (t : String)
    (userToken : Option AuthToken) (err : Option GoError)
    (hx : extractToken c.Request = (t, none))
    (hv : V.Validate t w = Except.ok ((userToken, err), w1))
    (hbad : err ≠ none ∨ userToken = none) :
    BearerTokenAuth V next (c, w) = Except.ok (c.AbortWithStatus StatusUnauthorized, w1) := by
  simp only [BearerTokenAuth, hx, hv]
  rw [if_pos hbad]

/-- C3: when the credential `t` is extracted and `Validate t` returns a token
and a nil error, `BearerTokenAuth` runs the next handler on the context with
the token stored under the token key (so `Token` returns exactly that token),
with status, abort flag and errors as before; when `Validate t` returns an
error, or a nil token, the request is aborted with status 401, whatever the
next handler is, and the stored keys are as before. -/
theorem BearerTokenAuth_validation {σ : Type} (V : TokenValidator σ)
    (next : Context × σ → Go (Context × σ)) (c : Context) (w : σ) (t : String)
    (hx : extractToken c.Request = (t, none)) :
    (∀ (tok : AuthToken) (w1 : σ),
      V.Validate t w = Except.ok ((some tok, none), w1) →
      BearerTokenAuth V next (c, w) =
        next (c.Set tokenKey (Value.authToken (some tok)), w1) ∧
      (Token (c.Set tokenKey (Value.authToken (some tok)))).1 = some tok ∧
      (c.Set tokenKey (Value.authToken (some tok))).status = c.status ∧
      (c.Set tokenKey (Value.authToken (some tok))).aborted = c.aborted ∧
      (c.Set tokenKey (Value.authToken (some tok))).Errors = c.Errors) ∧
    (∀ (userToken : Option AuthToken) (err : Option GoError) (w1 : σ),
      V.Validate t w = Except.ok ((userToken, err), w1) →
      err ≠ none ∨ userToken = none →
      BearerTokenAuth V next (c, w) =
        Except.ok (c.AbortWithStatus StatusUnauthorized, w1) ∧
      (c.AbortWithStatus StatusUnauthorized).status = 401 ∧
      (c.AbortWithStatus StatusUnauthorized).aborted = true ∧
      (c.AbortWithStatus StatusUnauthorized).Keys = c.Keys) := by
  constructor
  · intro tok w1 hv
    refine ⟨BearerTokenAuth_accept V next c w w1 t tok hx hv, ?_, rfl, rfl, rfl⟩
    rw [Token_Set_authToken]
  · intro userToken err w1 hv hbad
    exact ⟨BearerTokenAuth_reject V next c w w1 t userToken err hx hv hbad, rfl, rfl, rfl⟩

/-- C3 at the requests of the tests: a valid token reaches the route handler
with the token in the context, a nil token and a validator error end in 401. -/
theorem BearerTokenAuth_validation_witness :
    (BearerTokenAuth (mockTokenValidator (some serviceToken)) okHandler
        (newContext ["Bearer totallyValid"], 0) =
      okHandler ((newContext ["Bearer totallyValid"]).Set tokenKey
        (Value.authToken (some serviceToken)), 1)) ∧
    (BearerTokenAuth (mockTokenValidator none) okHandler
        (newContext ["Bearer totallyInvalid"], 0) =
      Except.ok ((newContext ["Bearer totallyInvalid"]).AbortWithStatus StatusUnauthorized, 1)) ∧
    (BearerTokenAuth rejectingValidator okHandler
        (newContext ["Bearer totallyInvalid"], 0) =
      Except.ok ((newContext ["Bearer totallyInvalid"]).AbortWithStatus StatusUnauthorized, 1)) :=
  ⟨((BearerTokenAuth_validation (mockTokenValidator (some serviceToken)) okHandler
      (newContext ["Bearer totallyValid"]) 0 "totallyValid" (by decide)).1
      serviceToken 1 rfl).1,
   ((BearerTokenAuth_validation (mockTokenValidator none) okHandler
      (newContext ["Bearer totallyInvalid"]) 0 "totallyInvalid" (by decide)).2
      none none 1 rfl (Or.inr rfl)).1,
   ((BearerTokenAuth_validation rejectingValidator okHandler
      (newContext ["Bearer totallyInvalid"]) 0 "totallyInvalid" (by decide)).2
      none (some ⟨"token rejected"⟩) 1 rfl (Or.inl (by decide))).1⟩

/-- C4: when `extractToken` fails, `BearerTokenAuth` aborts the request with
status 401 for every validator and every next handler: the result does not
depend on either, the outside state is the one before the call (`Validate`
was not called), and the stored keys are as before. -/
theorem BearerTokenAuth_extraction_failure {σ : Type} (V : TokenValidator σ)
    (next : Context × σ → Go (Context × σ)) (c : Context) (w : σ)
    (hx : (extractToken c.Request).2 ≠ none) :
    ∃ err : GoError, (extractToken c.Request).2 = some err ∧
      BearerTokenAuth V next (c, w) =
        Except.ok (c.AbortWithError StatusUnauthorized err, w) ∧
      (c.AbortWithError StatusUnauthorized err).status = 401 ∧
      (c.AbortWithError StatusUnauthorized err).aborted = true ∧
      (c.AbortWithError StatusUnauthorized err).Keys = c.Keys := by
  cases hres : extractToken c.Request with
  | mk t e =>
    cases e with
    | none => rw [hres] at hx; exact absurd rfl hx
    | some err =>
      exact ⟨err, rfl, BearerTokenAuth_extract_error V next c w t err hres, rfl, rfl, rfl⟩

/-- C4 at the request without Authorization header and a validator that
accepts every credential: the call counter of the validator stays at 0. -/
theorem BearerTokenAuth_extraction_failure_witness :
    ∃ err : GoError, (extractToken bareContext.Request).2 = some err ∧
      BearerTokenAuth (mockTokenValidator (some serviceToken)) okHandler (bareContext, 0) =
        Except.ok (bareContext.AbortWithError StatusUnauthorized err, 0) ∧
      (bareContext.AbortWithError StatusUnauthorized err).status = 401 ∧
      (bareContext.AbortWithError StatusUnauthorized err).aborted = true ∧
      (bareContext.AbortWithError StatusUnauthorized err).Keys = bareContext.Keys :=
  BearerTokenAuth_extraction_failure (mockTokenValidator (some serviceToken)) okHandler
    bareContext 0 (by decide)

/-! ## Context accessors -/

theorem Token_snd (c : Context) : (Token c).2 = c := by
  unfold Token
  split
  · rfl
  · split <;> rfl

theorem Token_of_authToken (c : Context) (p : Option AuthToken)
    (h : c.Get tokenKey = (Value.authToken p, true)) : Token c = (p, c) := by
  simp [Token, h]

theorem Token_of_no_authToken (c : Context)
    (h : ∀ t, c.Get tokenKey ≠ (Value.authToken (some t), true)) : Token c = (none, c) := by
  unfold Token
  split
  · rfl
  · next v hget =>
    split
    · next p =>
      cases p with
      | none => rfl
      | some t => exact absurd hget (h t)
    · rfl

theorem Token_cases (c : Context) :
    (∃ t, c.Get tokenKey = (Value.authToken (some t), true)) ∨
    (∀ t, c.Get tokenKey ≠ (Value.authToken (some t), true)) := by
  by_cases h : ∃ t, c.Get tokenKey = (Value.authToken (some t), true)
  · exact Or.inl h
  · exact Or.inr (fun t ht => h ⟨t, ht⟩)

theorem SessionUser_of_token (c : Context) (t : AuthToken)
    (h : Token c = (some t, c)) : SessionUser c = (t.User, c) := by
  unfold SessionUser
  rw [h]
  cases hu : t.User <;> simp [hu]

theorem AuditActor_of_token (c : Context) (t : AuthToken) (h : Token c = (some t, c)) :
    AuditActor c = ((match t.User with | some u => u.Username | none => t.ClientID), c) := by
  unfold AuditActor
  rw [h]
  cases hu : t.User <;> simp [hu]

theorem SessionUser_of_none (c : Context) (h : Token c = (none, c)) :
    SessionUser c = (none, c) := by
  unfold SessionUser
  rw [h]

theorem AuditActor_of_none (c : Context) (h : Token c = (none, c)) :
    AuditActor c = ("unknown", c) := by
  unfold AuditActor
  rw [h]

theorem SessionUser_snd (c : Context) : (SessionUser c).2 = c := by
  rcases Token_cases c with ⟨t, ht⟩ | h
  · rw [SessionUser_of_token c t (Token_of_authToken c (some t) ht)]
  · rw [SessionUser_of_none c (Token_of_no_authToken c h)]

theorem AuditActor_snd (c : Context) : (AuditActor c).2 = c := by
  rcases Token_cases c with ⟨t, ht⟩ | h
  · rw [AuditActor_of_token c t (Token_of_authToken c (some t) ht)]
  · rw [AuditActor_of_none c (Token_of_no_authToken c h)]

/-! ## Authorization gate -/

theorem MustScope_of_token {σ : Type} (inSlice : StringInSlice) (scopes : List String)
    (next : Context × σ → Go (Context × σ)) (c : Context) (w : σ) (t : AuthToken)
    (h : Token c = (some t, c)) :
    MustScope inSlice scopes next (c, w) =
      if hasSharedScope inSlice t.Scopes scopes = true then next (c, w)
      else Except.ok (c.AbortWithStatus StatusUnauthorized, w) := by
  unfold MustScope
  simp only [h]
  cases hasSharedScope inSlice t.Scopes scopes <;> simp

theorem MustScope_of_none {σ : Type} (inSlice : StringInSlice) (scopes : List String)
    (next : Context × σ → Go (Context × σ)) (c : Context) (w : σ)
    (h : Token c = (none, c)) :
    MustScope inSlice scopes next (c, w) =
      Except.ok (c.AbortWithStatus StatusUnauthorized, w) := by
  unfold MustScope
  simp only [h]

/-- C5: with the helper `stringInSlice` read as list membership,
`MustScope required` hands the unchanged context to the next handler when the
context holds an `AuthToken` under the token key whose scopes share a string
with `required`; in every other case it aborts with status 401, whatever the
next handler is, leaving request, keys and errors as they were. -/
theorem MustScope_authorizes_iff_shared {σ : Type} (inSlice : StringInSlice)
    (hin : ∀ a list, inSlice a list = true ↔ a ∈ list) (required : List String)
    (next : Context × σ → Go (Context × σ)) (c : Context) (w : σ) :
    ((∃ tok, c.Get tokenKey = (Value.authToken (some tok), true) ∧
        ∃ s, s ∈ tok.Scopes ∧ s ∈ required) →
      MustScope inSlice required next (c, w) = next (c, w)) ∧
    ((¬ ∃ tok, c.Get tokenKey = (Value.authToken (some tok), true) ∧
        ∃ s, s ∈ tok.Scopes ∧ s ∈ required) →
      MustScope inSlice required next (c, w) =
        Except.ok (c.AbortWithStatus StatusUnauthorized, w) ∧
      (c.AbortWithStatus StatusUnauthorized).status = 401 ∧
      (c.AbortWithStatus StatusUnauthorized).aborted = true ∧
      (c.AbortWithStatus StatusUnauthorized).Keys = c.Keys ∧
      (c.AbortWithStatus StatusUnauthorized).Errors = c.Errors ∧
      (c.AbortWithStatus StatusUnauthorized).Request = c.Request) := by
  constructor
  · rintro ⟨tok, hget, hshared⟩
    rw [MustScope_of_token inSlice required next c w tok
      (Token_of_authToken c (some tok) hget)]
    rw [if_pos ((hasSharedScope_iff inSlice hin tok.Scopes required).mpr hshared)]
  · intro hno
    refine ⟨?_, rfl, rfl, rfl, rfl, rfl⟩
    rcases Token_cases c with ⟨t, ht⟩ | h
    · rw [MustScope_of_token inSlice required next c w t
        (Token_of_authToken c (some t) ht)]
      have hns : ¬ hasSharedScope inSlice t.Scopes required = true := fun hs =>
        hno ⟨t, ht, (hasSharedScope_iff inSlice hin t.Scopes required).mp hs⟩
      rw [if_neg hns]
    · exact MustScope_of_none inSlice required next c w (Token_of_no_authToken c h)

/-- C5 at the cases of `TestMustScope`: the token with scopes `service` and
`mobile` passes a route requiring `service`; a context without token does not. -/
theorem MustScope_authorizes_iff_shared_witness :
    (MustScope stringInSlice ["service"] okHandler
        (bareContext.Set tokenKey (Value.authToken (some serviceToken)), 0) =
      okHandler (bareContext.Set tokenKey (Value.authToken (some serviceToken)), 0)) ∧
    (MustScope stringInSlice ["service"] okHandler (bareContext, 0) =
      Except.ok (bareContext.AbortWithStatus StatusUnauthorized, 0)) :=
  ⟨(MustScope_authorizes_iff_shared stringInSlice stringInSlice_iff_mem ["service"] okHandler
      (bareContext.Set tokenKey (Value.authToken (some serviceToken))) 0).1
      ⟨serviceToken, by decide, "service", by decide, by decide⟩,
   ((MustScope_authorizes_iff_shared stringInSlice stringInSlice_iff_mem ["service"] okHandler
      bareContext 0).2
      (by
        rintro ⟨tok, hget, _⟩
        have h0 : bareContext.Get tokenKey = (Value.nil, false) := by decide
        rw [h0] at hget
        exact Bool.noConfusion (congrArg Prod.snd hget))).1⟩

/-- C10: every accessor returns the context it was given. Without an
`AuthToken` under the token key, `Token` and `SessionUser` return nil and
`AuditActor` returns `unknown`; with an `AuthToken` `t` stored, `SessionUser`
returns `t.User`, and `AuditActor` returns the username when `t.User` is present
and `t.ClientID` otherwise. A second call of `AuditActor` returns the value of
the first. -/
theorem accessors_read_token (c : Context) :
    ((Token c).2 = c ∧ (SessionUser c).2 = c ∧ (AuditActor c).2 = c) ∧
    ((∀ t, c.Get tokenKey ≠ (Value.authToken (some t), true)) →
      (Token c).1 = none ∧ (SessionUser c).1 = none ∧ (AuditActor c).1 = "unknown") ∧
    (∀ t, c.Get tokenKey = (Value.authToken (some t), true) →
      (Token c).1 = some t ∧ (SessionUser c).1 = t.User ∧
      (AuditActor c).1 = (match t.User with
        | some u => u.Username
        | none => t.ClientID)) ∧
    (AuditActor (AuditActor c).2).1 = (AuditActor c).1 := by
  refine ⟨⟨Token_snd c, SessionUser_snd c, AuditActor_snd c⟩, ?_, ?_, ?_⟩
  · intro h
    have ht := Token_of_no_authToken c h
    rw [ht, SessionUser_of_none c ht, AuditActor_of_none c ht]
    exact ⟨rfl, rfl, rfl⟩
  · intro t h
    have ht := Token_of_authToken c (some t) h
    rw [ht, SessionUser_of_token c t ht, AuditActor_of_token c t ht]
    exact ⟨rfl, rfl, rfl⟩
  · rw [AuditActor_snd c]

/-- C10 at a context that never passed the gate and at contexts holding the
user token and the service token. -/
theorem accessors_read_token_witness :
    ((Token bareContext).1 = none ∧ (SessionUser bareContext).1 = none ∧
      (AuditActor bareContext).1 = "unknown") ∧
    (AuditActor (bareContext.Set tokenKey (Value.authToken (some userToken)))).1 =
      "robzienert" ∧
    (AuditActor (bareContext.Set tokenKey (Value.authToken (some serviceToken)))).1 =
      "clientapp" :=
  ⟨(accessors_read_token bareContext).2.1 (fun t h => by
      have h0 : bareContext.Get tokenKey = (Value.nil, false) := by decide
      rw [h0] at h
      exact Bool.noConfusion (congrArg Prod.snd h)),
   ((accessors_read_token (bareContext.Set tokenKey (Value.authToken (some userToken)))).2.2.1
      userToken (by decide)).2.2,
   ((accessors_read_token (bareContext.Set tokenKey (Value.authToken (some serviceToken)))).2.2.1
      serviceToken (by decide)).2.2⟩

/-! ## Failure outcomes -/

theorem extractToken_error_message (r : Request) (t : String) (err : GoError)
    (h : extractToken r = (t, some err)) :
    err = ⟨"no authorization header"⟩ ∨ err = ⟨"incomplete authorization header"⟩ := by
  unfold extractToken at h
  simp only at h
  split at h
  · left
    exact (Option.some.inj (congrArg Prod.snd h)).symm
  · split at h
    · right
      exact (Option.some.inj (congrArg Prod.snd h)).symm
    · exact Option.noConfusion (congrArg Prod.snd h)

/-- C9, counterexample: with one validator and contexts that differ in the
Authorization header only, the absent header, the one-token header and the
rejected credential all end in status 401 and an aborted request, but with three
different lists of errors attached to the context. -/
theorem failure_outcomes_differ :
    (BearerTokenAuth rejectingValidator okHandler (bareContext, 0)).map
        (fun r => r.1.outcome) =
      Except.ok (401, true, [gin.Error.mk ⟨"no authorization header"⟩ ErrorTypePrivate Value.nil]) ∧
    (BearerTokenAuth rejectingValidator okHandler (newContext ["Bearer"], 0)).map
        (fun r => r.1.outcome) =
      Except.ok (401, true,
        [gin.Error.mk ⟨"incomplete authorization header"⟩ ErrorTypePrivate Value.nil]) ∧
    (BearerTokenAuth rejectingValidator okHandler (newContext ["Bearer abc"], 0)).map
        (fun r => r.1.outcome) =
      Except.ok (401, true, []) ∧
    (BearerTokenAuth rejectingValidator okHandler (bareContext, 0)).map
        (fun r => r.1.outcome) ≠
      (BearerTokenAuth rejectingValidator okHandler (newContext ["Bearer abc"], 0)).map
        (fun r => r.1.outcome) := by
  decide

/-- C9, amended: every failure path of `BearerTokenAuth` and of `MustScope` ends
with status 401 and the request aborted. After a validator error, a nil token,
a missing token or a scope mismatch the errors attached to the context are the
ones it had before; after a failed header extraction one private error is
appended to them, whose message is `no authorization header` or
`incomplete authorization header`. -/
theorem failure_outcome_unauthorized {σ : Type} (V : TokenValidator σ)
    (inSlice : StringInSlice) (next : Context × σ → Go (Context × σ)) (c : Context) (w : σ)
    (required : List String) :
    (∀ (t : String) (err : GoError), extractToken c.Request = (t, some err) →
      (err = ⟨"no authorization header"⟩ ∨ err = ⟨"incomplete authorization header"⟩) ∧
      (BearerTokenAuth V next (c, w)).map (fun r => r.1.outcome) =
        Except.ok (401, true, c.Errors ++ [gin.Error.mk err ErrorTypePrivate Value.nil])) ∧
    (∀ (t : String) (userToken : Option AuthToken) (err : Option GoError) (w1 : σ),
      extractToken c.Request = (t, none) →
      V.Validate t w = Except.ok ((userToken, err), w1) →
      err ≠ none ∨ userToken = none →
      (BearerTokenAuth V next (c, w)).map (fun r => r.1.outcome) =
        Except.ok (401, true, c.Errors)) ∧
    ((∀ tok, c.Get tokenKey = (Value.authToken (some tok), true) →
        hasSharedScope inSlice tok.Scopes required = false) →
      (MustScope inSlice required next (c, w)).map (fun r => r.1.outcome) =
        Except.ok (401, true, c.Errors)) := by
  refine ⟨?_, ?_, ?_⟩
  · intro t err hx
    refine ⟨extractToken_error_message c.Request t err hx, ?_⟩
    rw [BearerTokenAuth_extract_error V next c w t err hx]
    rfl
  · intro t userToken err w1 hx hv hbad
    rw [BearerTokenAuth_reject V next c w w1 t userToken err hx hv hbad]
    rfl
  · intro hno
    rcases Token_cases c with ⟨t, ht⟩ | h
    · rw [MustScope_of_token inSlice required next c w t
        (Token_of_authToken c (some t) ht)]
      rw [hno t ht]
      rfl
    · rw [MustScope_of_none inSlice required next c w (Token_of_no_authToken c h)]
      rfl

/-- C9, amended, at the absent header, at a rejected credential and at a
context without token in front of `MustScope`. -/
theorem failure_outcome_unauthorized_witness :
    ((BearerTokenAuth rejectingValidator okHandler (bareContext, 0)).map
        (fun r => r.1.outcome) =
      Except.ok (401, true, bareContext.Errors ++
        [gin.Error.mk ⟨"no authorization header"⟩ ErrorTypePrivate Value.nil])) ∧
    ((BearerTokenAuth rejectingValidator okHandler (newContext ["Bearer abc"], 0)).map
        (fun r => r.1.outcome) =
      Except.ok (401, true, (newContext ["Bearer abc"]).Errors)) ∧
    ((MustScope stringInSlice ["service"] okHandler (bareContext, 0)).map
        (fun r => r.1.outcome) =
      Except.ok (401, true, bareContext.Errors)) :=
  ⟨((failure_outcome_unauthorized rejectingValidator stringInSlice okHandler
      bareContext 0 []).1 "" ⟨"no authorization header"⟩ (by decide)).2,
   (failure_outcome_unauthorized rejectingValidator stringInSlice okHandler
      (newContext ["Bearer abc"]) 0 []).2.1
      "abc" none (some ⟨"token rejected"⟩) 1 (by decide) rfl (Or.inl (by decide)),
   (failure_outcome_unauthorized rejectingValidator stringInSlice okHandler
      bareContext 0 ["service"]).2.2
      (fun tok h => by
        have h0 : bareContext.Get tokenKey = (Value.nil, false) := by decide
        rw [h0] at h
        exact Bool.noConfusion (congrArg Prod.snd h))⟩

/-! ## Spring Security validator -/

theorem checkToken_of_request (lib : Stdlib) (v : SpringSecTokenValidator) (token : String)
    (req : Request) (h : lib.NewRequest "GET" (checkTokenURL lib v token) = (some req, none)) :
    v.checkToken lib token =
      match v.client.Do (outboundRequest lib v req) with
      | (_, some e) => Except.ok (none, some e)
      | (none, none) => Except.error nilDereference
      | (some resp, none) =>
        if resp.StatusCode ≠ 200 then
          Except.ok (none, some ⟨"got status: " ++ toString resp.StatusCode⟩)
        else
          match resp.Body with
          | (_, some e) => Except.ok (none, some e)
          | (bytes, none) =>
            match lib.Unmarshal bytes with
            | (_, some e) => Except.ok (none, some e)
            | (tokenResp, none) => Except.ok (some tokenResp, none) := by
  unfold checkTokenURL at h
  simp only [SpringSecTokenValidator.checkToken, h, outboundRequest]

theorem checkToken_nil_request (lib : Stdlib) (v : SpringSecTokenValidator) (token : String)
    (err : Option GoError)
    (h : lib.NewRequest "GET" (checkTokenURL lib v token) = (none, err)) :
    v.checkToken lib token = Except.error nilDereference := by
  unfold checkTokenURL at h
  simp only [SpringSecTokenValidator.checkToken, h]

theorem checkToken_decoded (lib : Stdlib) (v : SpringSecTokenValidator) (token : String)
    (req : Request) (resp : Response) (bytes : String) (r : checkTokenResponse)
    (hreq : lib.NewRequest "GET" (checkTokenURL lib v token) = (some req, none))
    (hdo : v.client.Do (outboundRequest lib v req) = (some resp, none))
    (hstatus : resp.StatusCode = 200) (hbody : resp.Body = (bytes, none))
    (hjson : lib.Unmarshal bytes = (r, none)) :
    v.checkToken lib token = Except.ok (some r, none) := by
  rw [checkToken_of_request lib v token req hreq]
  simp [hdo, hstatus, hbody, hjson]

theorem Validate_of_checkToken_error (lib : Stdlib) (v : SpringSecTokenValidator)
    (token : String) (resp : Option checkTokenResponse) (e : GoError)
    (h : v.checkToken lib token = Except.ok (resp, some e)) :
    v.Validate lib token =
      Except.ok (none, some ⟨"failed to check auth token: " ++ e.Error⟩) := by
  simp [SpringSecTokenValidator.Validate, h, validateFailed]

theorem Validate_of_empty_client_id (lib : Stdlib) (v : SpringSecTokenValidator)
    (token : String) (r : checkTokenResponse)
    (h : v.checkToken lib token = Except.ok (some r, none)) (hid : r.ClientID = "") :
    v.Validate lib token = Except.error nilDereference := by
  simp [SpringSecTokenValidator.Validate, h, validateFailed, hid]

theorem Validate_of_nil_request (lib : Stdlib) (v : SpringSecTokenValidator) (token : String)
    (err : Option GoError)
    (h : lib.NewRequest "GET" (checkTokenURL lib v token) = (none, err)) :
    v.Validate lib token = Except.error nilDereference := by
  simp [SpringSecTokenValidator.Validate, checkToken_nil_request lib v token err h]

/-- The failures of the introspection call that `checkToken` reports: a
transport error, a status other than 200, an unreadable body and an undecodable
body each make `Validate` return a nil token and an error whose message is
`failed to check auth token: ` followed by the cause. -/
theorem Validate_reported_failures (lib : Stdlib) (v : SpringSecTokenValidator)
    (token : String) (req : Request)
    (hreq : lib.NewRequest "GET" (checkTokenURL lib v token) = (some req, none)) :
    (∀ (resp : Option Response) (e : GoError),
      v.client.Do (outboundRequest lib v req) = (resp, some e) →
      v.Validate lib token =
        Except.ok (none, some ⟨"failed to check auth token: " ++ e.Error⟩)) ∧
    (∀ resp : Response, v.client.Do (outboundRequest lib v req) = (some resp, none) →
      resp.StatusCode ≠ 200 →
      v.Validate lib token =
        Except.ok (none, some
          ⟨"failed to check auth token: " ++ ("got status: " ++ toString resp.StatusCode)⟩)) ∧
    (∀ (resp : Response) (bytes : String) (e : GoError),
      v.client.Do (outboundRequest lib v req) = (some resp, none) →
      resp.StatusCode = 200 → resp.Body = (bytes, some e) →
      v.Validate lib token =
        Except.ok (none, some ⟨"failed to check auth token: " ++ e.Error⟩)) ∧
    (∀ (resp : Response) (bytes : String) (r : checkTokenResponse) (e : GoError),
      v.client.Do (outboundRequest lib v req) = (some resp, none) →
      resp.StatusCode = 200 → resp.Body = (bytes, none) →
      lib.Unmarshal bytes = (r, some e) →
      v.Validate lib token =
        Except.ok (none, some ⟨"failed to check auth token: " ++ e.Error⟩)) := by
  have hck := checkToken_of_request lib v token req hreq
  refine ⟨?_, ?_, ?_, ?_⟩
  · intro resp e hdo
    apply Validate_of_checkToken_error lib v token none e
    rw [hck, hdo]
    cases resp <;> rfl
  · intro resp hdo hstatus
    apply Validate_of_checkToken_error lib v token none
      ⟨"got status: " ++ toString resp.StatusCode⟩
    rw [hck, hdo]
    simp [hstatus]
  · intro resp bytes e hdo hstatus hbody
    apply Validate_of_checkToken_error lib v token none e
    rw [hck, hdo]
    simp [hstatus, hbody]
  · intro resp bytes r e hdo hstatus hbody hjson
    apply Validate_of_checkToken_error lib v token none e
    rw [hck, hdo]
    simp [hstatus, hbody, hjson]

theorem Validate_of_checkToken_ok (lib : Stdlib) (v : SpringSecTokenValidator)
    (token : String) (r : checkTokenResponse)
    (hck : v.checkToken lib token = Except.ok (some r, none))
    (hid : r.ClientID ≠ "") :
    v.Validate lib token =
      Except.ok (some (AuthToken.mk
        (if r.Username ≠ "" then some (User.mk r.Username r.Authorities) else none)
        r.Scope r.ClientID), none) := by
  by_cases hu : r.Username = ""
  · simp [SpringSecTokenValidator.Validate, hck, validateFailed, hid, hu]
  · simp [SpringSecTokenValidator.Validate, hck, validateFailed, hid, hu]

/-- C6: when the request is built, the provider answers with status 200, the
body is read and decodes to `r`, and `r.ClientID` is not empty, `Validate`
returns a nil error and a token with the client id and the scopes of `r`; the
token has a user exactly when `r.Username` is not empty, and that user has the
username and the authorities of `r`. -/
theorem Validate_success (lib : Stdlib) (v : SpringSecTokenValidator) (token : String)
    (req : Request) (resp : Response) (bytes : String) (r : checkTokenResponse)
    (hreq : lib.NewRequest "GET" (checkTokenURL lib v token) = (some req, none))
    (hdo : v.client.Do (outboundRequest lib v req) = (some resp, none))
    (hstatus : resp.StatusCode = 200) (hbody : resp.Body = (bytes, none))
    (hjson : lib.Unmarshal bytes = (r, none))
    (hid : r.ClientID ≠ "") :
    ∃ t : AuthToken, v.Validate lib token = Except.ok (some t, none) ∧
      t.ClientID = r.ClientID ∧ t.Scopes = r.Scope ∧
      (t.User ≠ none ↔ r.Username ≠ "") ∧
      (r.Username ≠ "" → t.User = some (User.mk r.Username r.Authorities)) := by
  have hck := checkToken_decoded lib v token req resp bytes r hreq hdo hstatus hbody hjson
  refine ⟨_, Validate_of_checkToken_ok lib v token r hck hid, rfl, rfl, ?_, ?_⟩
  · by_cases hu : r.Username = "" <;> simp [hu]
  · intro hu
    simp [hu]

/-- C6 at the provider stub of the tests and its known token. -/
theorem Validate_success_witness :
    ∃ t : AuthToken,
      (stubValidator oauthProviderStub).Validate stubStdlib "fakeToken" =
        Except.ok (some t, none) ∧
      t.ClientID = "clientapp" ∧ t.Scopes = ["mobile", "read"] ∧
      (t.User ≠ none ↔ "robzienert" ≠ "") ∧
      ("robzienert" ≠ "" →
        t.User = some (User.mk "robzienert" ["ROLE_CONSOLE", "ROLE_USER"])) :=
  Validate_success stubStdlib (stubValidator oauthProviderStub) "fakeToken"
    (Request.mk "GET" "http://provider/oauth/check_token?token=fakeToken" [])
    (Response.mk 200 (knownBody, none)) knownBody
    (checkTokenResponse.mk "robzienert" "clientapp" ["ROLE_CONSOLE", "ROLE_USER"]
      ["mobile", "read"])
    (by decide) (by decide) (by decide) rfl (by decide) (by decide)

/-- C7, at the failing input: the provider answers 200 with the empty JSON
object; `checkToken` returns the zero response and a nil error, and `Validate`
panics on `err.Error()` instead of returning an error. -/
theorem Validate_empty_client_id_panics :
    (stubValidator emptyObjectProvider).checkToken stubStdlib "anyToken" =
      Except.ok (some zeroResponse, none) ∧
    (stubValidator emptyObjectProvider).Validate stubStdlib "anyToken" =
      Except.error nilDereference := by
  decide

/-- C8, at the failing input: with the host `:` the request cannot be built,
`http.NewRequest` returns a nil request, and `checkToken`, hence `Validate`,
panics on `req.SetBasicAuth` instead of returning the error. -/
theorem Validate_bad_host_panics :
    stubStdlib.NewRequest "GET" (checkTokenURL stubStdlib badHostValidator "anyToken") =
      (none, some ⟨"parse: missing protocol scheme"⟩) ∧
    badHostValidator.checkToken stubStdlib "anyToken" = Except.error nilDereference ∧
    badHostValidator.Validate stubStdlib "anyToken" = Except.error nilDereference := by
  decide

/-! ## Error handler -/

theorem ByType_public (a : List gin.Error) :
    errorMsgs.ByType a ErrorTypePublic =
      a.filter (fun msg => msg.IsType ErrorTypePublic) := by
  have hany : ¬ ErrorTypePublic = ErrorTypeAny := by decide
  cases a with
  | nil => rfl
  | cons e rest => simp [errorMsgs.ByType, hany]

theorem length_pos_of_Last (a : List gin.Error) (last : gin.Error)
    (h : errorMsgs.Last a = some last) : a.length > 0 := by
  cases a with
  | nil => simp [errorMsgs.Last] at h
  | cons e rest => simp

theorem ErrorHandler_of_errors {σ : Type} (debugging : Bool)
    (next : Context × σ → Go (Context × σ)) (cw : Context × σ) (c : Context) (w : σ)
    (last : gin.Error) (id : String)
    (hnext : next cw = Except.ok (c, w))
    (hlast : errorMsgs.Last c.Errors = some last)
    (hid : c.Get "uuid" = (Value.string id, true) ∨ ((c.Get "uuid").2 = false ∧ id = "")) :
    ErrorHandler debugging next cw =
      Except.ok ((c, w), some (withLastMeta last
        (ErrorResponse.mk id last.Err.Error ""
          (Join (errorMsgs.Errors
            (if debugging = true then c.Errors
             else c.Errors.filter (fun msg => msg.IsType ErrorTypePublic))) "\n") []))) := by
  have hlen := length_pos_of_Last c.Errors last hlast
  have huuid : (match c.Get "uuid" with
      | (v, true) => v
      | (_, false) => Value.string "") = Value.string id := by
    rcases hid with h | ⟨h, hempty⟩
    · rw [h]
    · cases hget : c.Get "uuid" with
      | mk v b =>
        rw [hget] at h
        simp only at h
        subst h
        subst hempty
        rfl
  unfold ErrorHandler
  simp only [hnext, hlen, if_true, huuid, hlast, ByType_public]
  cases debugging <;> simp [buildResponse]

/-- C11, counterexample: outside debug mode, the handler of the test, whose two
errors are private, gets a response titled with the message of the last one;
and two requests without any public error, failing with different private
errors, get different responses. -/
theorem ErrorHandler_private_title_counterexample :
    ((gin.Error.mk ⟨"last error"⟩ ErrorTypePrivate Value.nil).IsType ErrorTypePublic = false ∧
      (ErrorHandler false boomHandler (bareContext, 0)).map (fun r => r.2) =
        Except.ok (some (ErrorResponse.mk "" "last error" "" "" []))) ∧
    (errorMsgs.ByType
        [gin.Error.mk ⟨"database password rejected"⟩ ErrorTypePrivate Value.nil]
        ErrorTypePublic =
      errorMsgs.ByType [gin.Error.mk ⟨"disk full"⟩ ErrorTypePrivate Value.nil]
        ErrorTypePublic ∧
      (ErrorHandler false (failingHandler "database password rejected")
          (bareContext, 0)).map (fun r => r.2) ≠
        (ErrorHandler false (failingHandler "disk full") (bareContext, 0)).map
          (fun r => r.2)) := by
  decide

theorem withLastMeta_fields (last : gin.Error) (resp : ErrorResponse) :
    (withLastMeta last resp).ID = resp.ID ∧
    (withLastMeta last resp).Title = resp.Title ∧
    (withLastMeta last resp).Detail = resp.Detail := by
  unfold withLastMeta
  split <;> exact ⟨rfl, rfl, rfl⟩

theorem withLastMeta_of_meta (last : gin.Error) (resp : ErrorResponse) (code : String)
    (extra : List (String × String)) (h : last.Meta = Value.ginErrorMeta code extra) :
    (withLastMeta last resp).Code = code ∧ (withLastMeta last resp).Meta = extra := by
  simp [withLastMeta, h]

theorem withLastMeta_of_no_meta (last : gin.Error) (resp : ErrorResponse)
    (h : ∀ code extra, last.Meta ≠ Value.ginErrorMeta code extra) :
    withLastMeta last resp = resp := by
  unfold withLastMeta
  split
  · next code extra hm => exact absurd hm (h code extra)
  · rfl

theorem withLastMeta_congr (last last2 : gin.Error) (resp : ErrorResponse)
    (h : last2.Meta = last.Meta) : withLastMeta last2 resp = withLastMeta last resp := by
  simp [withLastMeta, h]

/-- C11, amended: outside debug mode, for a non-empty list of accumulated errors
and a request id that is absent or a string, `ErrorHandler` writes a response
whose detail joins the messages of exactly the errors carrying the public flag,
whose title is the message of the last error whatever its type, and whose code
and meta are those of the last error's `GinErrorMeta`, empty without one. A
second run whose errors agree with these on the public errors and on the
message and meta of the last error, under the same request id, is answered
with the same response. In debug mode the detail joins the messages of all
errors. -/
theorem ErrorHandler_public_detail {σ : Type} (next : Context × σ → Go (Context × σ))
    (cw : Context × σ) (c : Context) (w : σ) (last : gin.Error) (id : String)
    (hnext : next cw = Except.ok (c, w))
    (hlast : errorMsgs.Last c.Errors = some last)
    (hid : c.Get "uuid" = (Value.string id, true) ∨ ((c.Get "uuid").2 = false ∧ id = "")) :
    (∃ resp : ErrorResponse,
      ErrorHandler false next cw = Except.ok ((c, w), some resp) ∧
      resp.ID = id ∧ resp.Title = last.Err.Error ∧
      resp.Detail =
        Join ((c.Errors.filter (fun msg => msg.IsType ErrorTypePublic)).map
          (fun msg => msg.Err.Error)) "\n" ∧
      (∀ code extra, last.Meta = Value.ginErrorMeta code extra →
        resp.Code = code ∧ resp.Meta = extra) ∧
      ((∀ code extra, last.Meta ≠ Value.ginErrorMeta code extra) →
        resp.Code = "" ∧ resp.Meta = [])) ∧
    (∀ (next2 : Context × σ → Go (Context × σ)) (cw2 : Context × σ) (c2 : Context) (w2 : σ)
      (last2 : gin.Error),
      next2 cw2 = Except.ok (c2, w2) →
      errorMsgs.Last c2.Errors = some last2 →
      c2.Get "uuid" = c.Get "uuid" →
      c2.Errors.filter (fun msg => msg.IsType ErrorTypePublic) =
        c.Errors.filter (fun msg => msg.IsType ErrorTypePublic) →
      last2.Err = last.Err → last2.Meta = last.Meta →
      (ErrorHandler false next2 cw2).map (fun r => r.2) =
        (ErrorHandler false next cw).map (fun r => r.2)) ∧
    (∃ resp : ErrorResponse,
      ErrorHandler true next cw = Except.ok ((c, w), some resp) ∧
      resp.Title = last.Err.Error ∧
      resp.Detail = Join (c.Errors.map (fun msg => msg.Err.Error)) "\n") := by
  have hprod := ErrorHandler_of_errors false next cw c w last id hnext hlast hid
  have hdebug := ErrorHandler_of_errors true next cw c w last id hnext hlast hid
  simp only [Bool.false_eq_true, if_false] at hprod
  simp only [if_true] at hdebug
  refine ⟨⟨_, hprod, ?_, ?_, ?_, ?_, ?_⟩, ?_, ⟨_, hdebug, ?_, ?_⟩⟩
  · exact (withLastMeta_fields last _).1
  · exact (withLastMeta_fields last _).2.1
  · exact (withLastMeta_fields last _).2.2
  · intro code extra hm
    exact withLastMeta_of_meta last _ code extra hm
  · intro hno
    rw [withLastMeta_of_no_meta last _ hno]
    exact ⟨rfl, rfl⟩
  · intro next2 cw2 c2 w2 last2 hnext2 hlast2 huuid hpub herr hmeta
    have hid2 : c2.Get "uuid" = (Value.string id, true) ∨
        ((c2.Get "uuid").2 = false ∧ id = "") := by
      rw [huuid]
      exact hid
    have h2 := ErrorHandler_of_errors false next2 cw2 c2 w2 last2 id hnext2 hlast2 hid2
    simp only [Bool.false_eq_true, if_false] at h2
    rw [h2, hprod, hpub, herr, withLastMeta_congr last last2 _ hmeta]
    rfl
  · exact (withLastMeta_fields last _).2.1
  · exact (withLastMeta_fields last _).2.2

/-- C11, amended, at the errors of the example in `err_test.go`, a private one
followed by a public one with a `GinErrorMeta`: the response shows the public
error only, and it is the response of the run that has the public error alone. -/
theorem ErrorHandler_public_detail_witness :
    (∃ resp : ErrorResponse,
      ErrorHandler false (handlerWithErrors exampleErrors) (bareContext, 0) =
        Except.ok ((Context.mk bareContext.Request bareContext.Keys exampleErrors
          StatusInternalServerError true, 0), some resp) ∧
      resp.ID = "" ∧ resp.Title = "This is a public-friendly error" ∧
      resp.Detail = "This is a public-friendly error" ∧
      resp.Code = "ABCD1234" ∧ resp.Meta = []) ∧
    ((ErrorHandler false (handlerWithErrors (exampleErrors.drop 1)) (bareContext, 0)).map
        (fun r => r.2) =
      (ErrorHandler false (handlerWithErrors exampleErrors) (bareContext, 0)).map
        (fun r => r.2)) := by
  have h := ErrorHandler_public_detail (handlerWithErrors exampleErrors) (bareContext, 0)
    (Context.mk bareContext.Request bareContext.Keys exampleErrors
      StatusInternalServerError true) 0
    (gin.Error.mk ⟨"This is a public-friendly error"⟩ ErrorTypePublic
      (Value.ginErrorMeta "ABCD1234" []))
    "" rfl (by decide) (Or.inr ⟨by decide, rfl⟩)
  obtain ⟨⟨resp, hrun, hid, htitle, hdetail, hmeta, _⟩, hsame, _⟩ := h
  refine ⟨⟨resp, hrun, hid, htitle, ?_, (hmeta "ABCD1234" [] rfl).1,
    (hmeta "ABCD1234" [] rfl).2⟩, ?_⟩
  · rw [hdetail]
    decide
  · exact hsame (handlerWithErrors (exampleErrors.drop 1)) (bareContext, 0)
      (Context.mk bareContext.Request bareContext.Keys (exampleErrors.drop 1)
        StatusInternalServerError true) 0
      (gin.Error.mk ⟨"This is a public-friendly error"⟩ ErrorTypePublic
        (Value.ginErrorMeta "ABCD1234" []))
      rfl (by decide) (by decide) (by decide) rfl rfl

end GinMiddleware
